import Mathlib

/-!
Verification development for the topoloom planarity adapter
(src/packages/topoloom/third_party/eaps/tl_planarity.c).

The adapter drives an external planarity library (graphLib, not part of
this repository) over a session made of module-level globals.  The external
library is treated as a collaborator: its observable behaviour is captured
by the GraphLib structure (the contents of the graph object as read through
the gp_ accessors) and by the LibOracle structure (the success or failure of
each library call made during a run, and the graph contents those calls
leave behind).  All adapter code is translated directly from the C source;
the pieces that belong to the external library are modelled from the spec
and say so in their doc comments.
-/

namespace TlPlanarity

/-- Modelled from the spec: status code of the external library (its header
is not in src).  The three outcome classes are success-with-embedding (OK),
failure (NOTOK) and success-with-non-planarity-proof (NONEMBEDDABLE); the
numeric values follow the external edge-addition planarity suite convention,
in particular OK is the value 0 that tl_clear_state stores into
g_lastEmbedResult. -/
def OK : Int := 0

/-- Modelled from the spec: the failure status code of the external library. -/
def NOTOK : Int := -2

/-- Modelled from the spec: the non-planarity status code of the external
library. -/
def NONEMBEDDABLE : Int := -3

/-- Modelled from the spec: minor-type flag of the external decision
procedure, one distinct bit per minor class.  Bits A, B, C, D and E1..E4
form the K3,3 family; bit E is the K5 family. -/
def MINORTYPE_A : Nat := 1

/-- Modelled from the spec: minor-type bit B (K3,3 family). -/
def MINORTYPE_B : Nat := 2

/-- Modelled from the spec: minor-type bit C (K3,3 family). -/
def MINORTYPE_C : Nat := 4

/-- Modelled from the spec: minor-type bit D (K3,3 family). -/
def MINORTYPE_D : Nat := 8

/-- Modelled from the spec: minor-type bit E (K5 family). -/
def MINORTYPE_E : Nat := 16

/-- Modelled from the spec: minor-type bit E1 (K3,3 family). -/
def MINORTYPE_E1 : Nat := 32

/-- Modelled from the spec: minor-type bit E2 (K3,3 family). -/
def MINORTYPE_E2 : Nat := 64

/-- Modelled from the spec: minor-type bit E3 (K3,3 family). -/
def MINORTYPE_E3 : Nat := 128

/-- Modelled from the spec: minor-type bit E4 (K3,3 family). -/
def MINORTYPE_E4 : Nat := 256

/-- Modelled from the spec: the observable contents of the external
library graph object, as read through the gp_ accessors the adapter uses.
Arc handles are C ints.  arcsAt v is the finite walk produced by the
gp_GetFirstArc / gp_GetNextArc / gp_IsArc cursor loop at vertex v, in the
fixed cyclic order of the embedding; the other fields are the direct
accessor results. -/
structure GraphLib where
  firstEdge : Int
  edgeInUseIndexBound : Int
  edgeInUse : Int → Bool
  twinArc : Int → Int
  neighbor : Int → Int
  arcsAt : Nat → List Int
  virtualVertexInUse : Nat → Bool
  minorType : Nat

/-- The session state held in the module-level globals of tl_planarity.c:
g_graph, g_edgeIdByArc, g_edgeIdByArcSize, g_vertexCount, g_edgeCount and
g_lastEmbedResult.  A none graph or arc map is a NULL pointer. -/
structure SessionState where
  graph : Option GraphLib
  edgeIdByArc : Option (Int → Int)
  edgeIdByArcSize : Int
  vertexCount : Int
  edgeCount : Int
  lastEmbedResult : Int

/-- The fully cleared session: both pointers NULL and all counters 0,
exactly what tl_clear_state leaves behind. -/
def clearedState : SessionState :=
  { graph := none, edgeIdByArc := none, edgeIdByArcSize := 0,
    vertexCount := 0, edgeCount := 0, lastEmbedResult := 0 }

/-- The state of the globals before any call: static initialisation to
NULL and 0, which coincides with the cleared state. -/
def initialSessionState : SessionState := clearedState

/-- tl_clear_state: frees the graph and the arc map and zeroes every
global, regardless of the previous state. -/
def tl_clear_state (_s : SessionState) : SessionState := clearedState

/-- tl_planarity_free: calls tl_clear_state. -/
def tl_planarity_free (s : SessionState) : SessionState := tl_clear_state s

/-- The guarded arc map read used by every extraction operation:
(arc greater-equal 0 and arc less than g_edgeIdByArcSize) selects the map
entry, anything else yields the sentinel -1 without touching the map. -/
def lookupArcEdgeId (mp : Int → Int) (sz : Int) (arc : Int) : Int :=
  if 0 ≤ arc ∧ arc < sz then mp arc else -1

/-- The arc map to read from the session; extraction only dereferences it
in states where run allocated it, so a missing map reads as all -1. -/
def sessionMap (s : SessionState) : Int → Int :=
  s.edgeIdByArc.getD (fun _ => -1)

/-- The arc counter loop shared by the matching phase and the witness-edge
walk: for (arc = gp_GetFirstEdge(g); arc < gp_EdgeInUseIndexBound(g); arc++). -/
def edgeScanArcs (G : GraphLib) : List Int :=
  (List.range (G.edgeInUseIndexBound - G.firstEdge).toNat).map
    (fun i => G.firstEdge + Int.ofNat i)

/-- The inner linear scan of the matching phase: the first input edge e in
0..m-1 that is not yet claimed and whose unordered endpoint pair equals
the arc endpoints. -/
def findMatch (u v : Nat → Int) (used : Nat → Bool) (uA vA : Int)
    (mNat : Nat) : Option Nat :=
  (List.range mNat).find? (fun e =>
    !used e && ((u e == uA && v e == vA) || (u e == vA && v e == uA)))

/-- One iteration of the arc-to-edge matching loop of tl_planarity_run:
skip arcs not in use, skip arcs whose twin has a smaller handle, otherwise
read the two endpoints, scan for the first unclaimed matching input edge
and, when found, mark it used and record it against the arc and its twin
(each store guarded by the map bounds). -/
def matchStep (u v : Nat → Int) (mNat : Nat) (G : GraphLib) (sz : Int)
    (st : (Nat → Bool) × (Int → Int)) (arc : Int) : (Nat → Bool) × (Int → Int) :=
  if G.edgeInUse arc = false then st
  else
    let twin := G.twinArc arc
    if twin < arc then st
    else
      let uA := G.neighbor twin
      let vA := G.neighbor arc
      match findMatch u v st.1 uA vA mNat with
      | none => st
      | some e =>
          (fun e2 => if e2 = e then true else st.1 e2,
           fun b =>
             if 0 ≤ twin ∧ twin < sz ∧ b = twin then (e : Int)
             else if 0 ≤ arc ∧ arc < sz ∧ b = arc then (e : Int)
             else st.2 b)

/-- The whole matching phase: fold the matching loop over the arc scan,
starting from no edge claimed and an all -1 map (the malloc init loop). -/
def buildArcMap (u v : Nat → Int) (mNat : Nat) (G : GraphLib) (sz : Int) :
    (Nat → Bool) × (Int → Int) :=
  (edgeScanArcs G).foldl (matchStep u v mNat G sz)
    (fun _ => false, fun _ => (-1 : Int))

/-- Modelled from the spec: the verdicts of the external library calls made
during one run, and the graph contents those calls leave behind.  Each Ok
field tells whether the corresponding library call succeeds (allocation
failures and rejected insertions are library verdicts); the GraphLib fields
give the observable contents of the one graph object at the points where
the adapter can next read it. -/
structure LibOracle where
  newOk : Bool
  ensureCapOk : Int → Bool
  initOk : Bool
  edgeIndexBound : Int
  mallocOk : Bool
  addEdgeOk : Nat → Bool
  callocOk : Bool
  graphAfterNew : GraphLib
  graphAtAddAbort : GraphLib
  builtGraph : GraphLib
  embedResult : Int → Int
  embeddedGraph : GraphLib
  sortedGraph : GraphLib

/-- tl_planarity_run: clear the previous session, validate n and m, create
the graph, reserve max(2m+4, 6n) arcs, initialise, allocate the arc map
(sized by gp_EdgeIndexBound) filled with -1, insert the m edges in input
order aborting on the first failure (recording NOTOK), build the
arc-to-edge map, run gp_Embed, restore vertex numbering on either success
class, and return the embed result.  Every early return reproduces exactly
the globals the C code leaves behind at that return. -/
def tl_planarity_run (n m : Int) (u v : Nat → Int) (embedFlags : Int)
    (L : LibOracle) : SessionState × Int :=
  if n ≤ 0 then (clearedState, NOTOK)
  else if m < 0 then (clearedState, NOTOK)
  else
    let s := { clearedState with vertexCount := n, edgeCount := m }
    if L.newOk = false then (s, NOTOK)
    else
      let requiredArcs := if m * 2 + 4 < 6 * n then 6 * n else m * 2 + 4
      if L.ensureCapOk requiredArcs = false then
        ({ s with graph := some L.graphAfterNew }, NOTOK)
      else if L.initOk = false then
        ({ s with graph := some L.graphAfterNew }, NOTOK)
      else
        let sz := L.edgeIndexBound
        if L.mallocOk = false then
          ({ s with graph := some L.graphAfterNew, edgeIdByArcSize := sz }, NOTOK)
        else
          let s2 := { s with graph := some L.graphAfterNew,
                             edgeIdByArcSize := sz,
                             edgeIdByArc := some (fun _ => (-1 : Int)) }
          match (List.range m.toNat).find? (fun i => !L.addEdgeOk i) with
          | some _ =>
              ({ s2 with graph := some L.graphAtAddAbort,
                         lastEmbedResult := NOTOK }, NOTOK)
          | none =>
              if L.callocOk = false then
                ({ s2 with graph := some L.builtGraph }, NOTOK)
              else
                let mp := buildArcMap u v m.toNat L.builtGraph sz
                let r := L.embedResult embedFlags
                let finalG :=
                  if r = OK ∨ r = NONEMBEDDABLE then L.sortedGraph
                  else L.embeddedGraph
                ({ s2 with graph := some finalG,
                           edgeIdByArc := some mp.2,
                           lastEmbedResult := r }, r)

/-- tl_planarity_rotation_size: 0 when the graph is NULL or the last embed
result is not OK, otherwise the total number of incidences counted by the
per-vertex arc walks. -/
def tl_planarity_rotation_size (s : SessionState) : Int :=
  match s.graph with
  | none => 0
  | some G =>
    if s.lastEmbedResult ≠ OK then 0
    else ((List.range s.vertexCount.toNat).map
            (fun v0 => ((G.arcsAt v0).length : Int))).sum

/-- The three output buffers of tl_planarity_write_rotation together with
the running cursor. -/
structure RotAcc where
  cursor : Int
  offsets : List Int
  edgeIds : List Int
  neighbors : List Int
deriving DecidableEq

/-- One entry of the rotation write: the guarded map read for the edge
identity, the neighbor accessor for the vertex, cursor advanced by one. -/
def rotArcStep (G : GraphLib) (mp : Int → Int) (sz : Int)
    (a : RotAcc) (arc : Int) : RotAcc :=
  { cursor := a.cursor + 1,
    offsets := a.offsets,
    edgeIds := a.edgeIds ++ [lookupArcEdgeId mp sz arc],
    neighbors := a.neighbors ++ [G.neighbor arc] }

/-- One vertex of the rotation write: record the current cursor as the
vertex offset, then walk the incident arcs in order. -/
def rotVertexStep (G : GraphLib) (mp : Int → Int) (sz : Int)
    (a : RotAcc) (v0 : Nat) : RotAcc :=
  (G.arcsAt v0).foldl (rotArcStep G mp sz)
    { a with offsets := a.offsets ++ [a.cursor] }

/-- tl_planarity_write_rotation: nothing is written when the graph is NULL
or the last embed result is not OK; otherwise one offset per vertex in
rising order, the per-vertex entries in the fixed arc walk order, and the
final total appended as offsets entry n. -/
def tl_planarity_write_rotation (s : SessionState) : RotAcc :=
  match s.graph with
  | none => { cursor := 0, offsets := [], edgeIds := [], neighbors := [] }
  | some G =>
    if s.lastEmbedResult ≠ OK then
      { cursor := 0, offsets := [], edgeIds := [], neighbors := [] }
    else
      let r := (List.range s.vertexCount.toNat).foldl
        (rotVertexStep G (sessionMap s) s.edgeIdByArcSize)
        { cursor := 0, offsets := [], edgeIds := [], neighbors := [] }
      { r with offsets := r.offsets ++ [r.cursor] }

/-- The witness-edge walk of tl_planarity_write_witness_edges: over the arc
scan, skip arcs not in use, read the mapped edge identity through the
guarded lookup, and emit it when it lies in 0..m-1 and was not seen yet. -/
def witnessEdgesAux (G : GraphLib) (mp : Int → Int) (sz mInt : Int) :
    (Nat → Bool) → List Int → List Int
  | _, [] => []
  | seen, arc :: rest =>
    if G.edgeInUse arc = false then witnessEdgesAux G mp sz mInt seen rest
    else
      let eid := lookupArcEdgeId mp sz arc
      if 0 ≤ eid ∧ eid < mInt ∧ seen eid.toNat = false then
        eid :: witnessEdgesAux G mp sz mInt
          (fun e => if e = eid.toNat then true else seen e) rest
      else witnessEdgesAux G mp sz mInt seen rest

/-- The counting walk of tl_planarity_witness_edge_count: same traversal
and dedup test as the write, incrementing a counter instead of emitting. -/
def witnessCountAux (G : GraphLib) (mp : Int → Int) (sz mInt : Int) :
    (Nat → Bool) → List Int → Int
  | _, [] => 0
  | seen, arc :: rest =>
    if G.edgeInUse arc = false then witnessCountAux G mp sz mInt seen rest
    else
      let eid := lookupArcEdgeId mp sz arc
      if 0 ≤ eid ∧ eid < mInt ∧ seen eid.toNat = false then
        1 + witnessCountAux G mp sz mInt
          (fun e => if e = eid.toNat then true else seen e) rest
      else witnessCountAux G mp sz mInt seen rest

/-- tl_planarity_witness_edge_count: 0 when the graph is NULL or the last
embed result is not NONEMBEDDABLE; 0 as well when the calloc of the
scratch seen buffer fails (its verdict callocOk belongs to the library
environment, as in LibOracle); otherwise the deduplicated count over the
arc scan. -/
def tl_planarity_witness_edge_count (s : SessionState) (callocOk : Bool) :
    Int :=
  match s.graph with
  | none => 0
  | some G =>
    if s.lastEmbedResult ≠ NONEMBEDDABLE then 0
    else if callocOk = false then 0
    else witnessCountAux G (sessionMap s) s.edgeIdByArcSize s.edgeCount
      (fun _ => false) (edgeScanArcs G)

/-- tl_planarity_write_witness_edges: nothing when the graph is NULL or the
last embed result is not NONEMBEDDABLE; nothing as well when the calloc of
the scratch seen buffer fails (its verdict callocOk belongs to the library
environment, as in LibOracle); otherwise the deduplicated edge identities
in arc-visitation order. -/
def tl_planarity_write_witness_edges (s : SessionState) (callocOk : Bool) :
    List Int :=
  match s.graph with
  | none => []
  | some G =>
    if s.lastEmbedResult ≠ NONEMBEDDABLE then []
    else if callocOk = false then []
    else witnessEdgesAux G (sessionMap s) s.edgeIdByArcSize s.edgeCount
      (fun _ => false) (edgeScanArcs G)

/-- tl_planarity_witness_vertex_count: 0 when the graph is NULL or the last
embed result is not NONEMBEDDABLE, otherwise the number of vertices in
0..n-1 flagged virtual by the decision procedure. -/
def tl_planarity_witness_vertex_count (s : SessionState) : Int :=
  match s.graph with
  | none => 0
  | some G =>
    if s.lastEmbedResult ≠ NONEMBEDDABLE then 0
    else (((List.range s.vertexCount.toNat).filter
            (fun v0 => G.virtualVertexInUse v0)).length : Int)

/-- tl_planarity_write_witness_vertices: nothing when the graph is NULL or
the last embed result is not NONEMBEDDABLE, otherwise the flagged vertex
identifiers emitted in rising loop order. -/
def tl_planarity_write_witness_vertices (s : SessionState) : List Int :=
  match s.graph with
  | none => []
  | some G =>
    if s.lastEmbedResult ≠ NONEMBEDDABLE then []
    else ((List.range s.vertexCount.toNat).filter
            (fun v0 => G.virtualVertexInUse v0)).map (fun v0 => Int.ofNat v0)

/-- The K3,3 family mask computed inside tl_planarity_witness_type. -/
def tlK33Mask : Nat :=
  MINORTYPE_A ||| MINORTYPE_B ||| MINORTYPE_C ||| MINORTYPE_D |||
  MINORTYPE_E1 ||| MINORTYPE_E2 ||| MINORTYPE_E3 ||| MINORTYPE_E4

/-- tl_planarity_witness_type: 0 when the graph is NULL or the last embed
result is not NONEMBEDDABLE; otherwise 33 when any K3,3 family bit of the
minor-type mask is set, else 5 when the K5 bit is set, else 0. -/
def tl_planarity_witness_type (s : SessionState) : Int :=
  match s.graph with
  | none => 0
  | some G =>
    if s.lastEmbedResult ≠ NONEMBEDDABLE then 0
    else if G.minorType &&& tlK33Mask ≠ 0 then 33
    else if G.minorType &&& MINORTYPE_E ≠ 0 then 5
    else 0

/-! Specification-side definitions.  These follow the words of the spec,
not the loops of the source, and the refinement theorems below compare the
source functions against them. -/

/-- Spec-side: the number of incidences of the vertices before vertex k,
which the spec names the starting cursor position of vertex k. -/
def rotPrefixLen (G : GraphLib) (k : Nat) : Int :=
  (((List.range k).map (fun w => (G.arcsAt w).length)).sum : Nat)

/-- Spec-side: offsets entry v is the starting cursor position of vertex v
for every v in rising order, and entry n is the total count. -/
def specRotationOffsets (G : GraphLib) (n : Nat) : List Int :=
  (List.range (n + 1)).map (fun v0 => rotPrefixLen G v0)

/-- Spec-side: for each vertex in rising order, the mapped edge identity
(or -1 when unmapped) of each incident arc in the fixed cyclic order. -/
def specRotationEdgeIds (G : GraphLib) (mp : Int → Int) (sz : Int)
    (n : Nat) : List Int :=
  (List.range n).flatMap (fun v0 => (G.arcsAt v0).map (lookupArcEdgeId mp sz))

/-- Spec-side: for each vertex in rising order, the neighbor vertex
identifier of each incident arc in the fixed cyclic order. -/
def specRotationNeighbors (G : GraphLib) (n : Nat) : List Int :=
  (List.range n).flatMap (fun v0 => (G.arcsAt v0).map G.neighbor)

/-- Spec-side: deduplication keeping the first occurrence of each value,
in visitation order. -/
def dedupKeepFirst (l : List Int) : List Int :=
  l.foldl (fun acc x => if x ∈ acc then acc else acc ++ [x]) []

/-- Spec-side: the in-use arcs of the scan, in scan order. -/
def inUseArcsList (G : GraphLib) : List Int :=
  (edgeScanArcs G).filter (fun a => G.edgeInUse a)

/-- Spec-side: the sequence of mapped edge identities of the in-use arcs in
arc-visitation order, restricted to identities inside 0..m-1. -/
def specWitnessRawIds (G : GraphLib) (mp : Int → Int) (sz mInt : Int) :
    List Int :=
  ((inUseArcsList G).map (lookupArcEdgeId mp sz)).filter
    (fun e => decide (0 ≤ e ∧ e < mInt))

/-- Spec-side: the distinct witness edge identities in arc-visitation
order, first occurrence kept. -/
def specWitnessEdgeIds (G : GraphLib) (mp : Int → Int) (sz mInt : Int) :
    List Int :=
  dedupKeepFirst (specWitnessRawIds G mp sz mInt)

/-- Spec-side: an arc in canonical direction, in use with a strictly
greater twin handle, visited once per edge by the matching loop. -/
def canonArc (G : GraphLib) (a : Int) : Prop :=
  G.edgeInUse a = true ∧ a < G.twinArc a

/-- Spec-side: whether edge identity e was already claimed by an arc with
a smaller handle than a, read off the finished map. -/
def priorClaimed (G : GraphLib) (mp : Int → Int) (a : Int) (e : Nat) : Bool :=
  (edgeScanArcs G).any (fun b => decide (b < a) && (mp b == (e : Int)))

/-- Spec-side: the identity the matching contract assigns to a canonical
arc a, namely the first input edge not claimed before a whose unordered
endpoint pair equals the endpoints of a, or -1 when none matches. -/
def specFirstUnclaimed (u v : Nat → Int) (mNat : Nat) (G : GraphLib)
    (mp : Int → Int) (a : Int) : Int :=
  ((findMatch u v (priorClaimed G mp a) (G.neighbor (G.twinArc a))
      (G.neighbor a) mNat).map (fun e => (e : Int))).getD (-1)

/-- Spec-side: two unordered endpoint pairs are equal. -/
def unorderedPairEq (u1 v1 u2 v2 : Int) : Prop :=
  (u1 = u2 ∧ v1 = v2) ∨ (u1 = v2 ∧ v1 = u2)

/-- Spec-side: no two input edges carry the same unordered endpoint pair. -/
def edgesDistinctPairs (u v : Nat → Int) (mNat : Nat) : Prop :=
  ∀ i ∈ List.range mNat, ∀ j ∈ List.range mNat, i ≠ j →
    ¬ unorderedPairEq (u i) (v i) (u j) (v j)

/-! Concrete instances used by the witness theorems: a triangle graph in
library representation, oracles for a fully successful run and for two
failing runs, and a small non-planar-outcome state. -/

/-- A graph object with nothing in it, standing for the contents of a graph
the adapter never reads successfully. -/
def emptyGraphLib : GraphLib :=
  { firstEdge := 0, edgeInUseIndexBound := 0,
    edgeInUse := fun _ => false, twinArc := fun a => a,
    neighbor := fun _ => -1, arcsAt := fun _ => [],
    virtualVertexInUse := fun _ => false, minorType := 0 }

/-- The triangle on vertices 0 1 2 as the library would hold it: six arcs,
twins paired as 0-1, 2-3, 4-5, each rotation listing the two incident
arcs. -/
def triBuilt : GraphLib :=
  { firstEdge := 0, edgeInUseIndexBound := 6,
    edgeInUse := fun a => decide (0 ≤ a ∧ a < 6),
    twinArc := fun a => if a % 2 = 0 then a + 1 else a - 1,
    neighbor := fun a =>
      if a = 0 then 1 else if a = 1 then 0
      else if a = 2 then 2 else if a = 3 then 1
      else if a = 4 then 0 else if a = 5 then 2 else -1,
    arcsAt := fun v0 =>
      if v0 = 0 then [0, 5] else if v0 = 1 then [1, 2]
      else if v0 = 2 then [3, 4] else [],
    virtualVertexInUse := fun _ => false, minorType := 0 }

/-- Endpoint array u of the triangle edge list (0,1) (1,2) (2,0). -/
def triU : Nat → Int := fun i => if i = 0 then 0 else if i = 1 then 1 else 2

/-- Endpoint array v of the triangle edge list (0,1) (1,2) (2,0). -/
def triV : Nat → Int := fun i => if i = 0 then 1 else if i = 1 then 2 else 0

/-- The arc map the matching phase produces for the triangle: arcs 0 and 1
carry edge 0, arcs 2 and 3 edge 1, arcs 4 and 5 edge 2. -/
def triMp : Int → Int := fun a => if 0 ≤ a ∧ a < 6 then a / 2 else -1

/-- Oracle for a fully successful triangle run: every library call
succeeds and gp_Embed returns OK on the planar triangle. -/
def triOracleOk : LibOracle :=
  { newOk := true, ensureCapOk := fun _ => true, initOk := true,
    edgeIndexBound := 12, mallocOk := true,
    addEdgeOk := fun _ => true, callocOk := true,
    graphAfterNew := emptyGraphLib, graphAtAddAbort := emptyGraphLib,
    builtGraph := triBuilt, embedResult := fun _ => OK,
    embeddedGraph := triBuilt, sortedGraph := triBuilt }

/-- Oracle identical to the successful triangle run except that the
scratch calloc of the matching phase fails. -/
def badCallocOracle : LibOracle :=
  { triOracleOk with callocOk := false }

/-- Oracle whose gp_AddEdge rejects every insertion, as it does for an
out-of-range endpoint. -/
def addFailOracle : LibOracle :=
  { triOracleOk with addEdgeOk := fun _ => false }

/-- Session state after the successful triangle run. -/
def sTri : SessionState :=
  { graph := some triBuilt, edgeIdByArc := some triMp,
    edgeIdByArcSize := 12, vertexCount := 3, edgeCount := 3,
    lastEmbedResult := OK }

/-- A small graph for the non-planar-outcome states: four in-use arcs,
twins 0-1 and 2-3, arc map sending arcs 0 1 to edge 0 and arcs 2 3 to
edge 1, vertices 1 and 3 flagged virtual, minor type bit A. -/
def gw : GraphLib :=
  { firstEdge := 0, edgeInUseIndexBound := 4,
    edgeInUse := fun a => decide (0 ≤ a ∧ a < 4),
    twinArc := fun a => if a % 2 = 0 then a + 1 else a - 1,
    neighbor := fun a =>
      if a = 0 then 1 else if a = 1 then 0
      else if a = 2 then 2 else if a = 3 then 1 else -1,
    arcsAt := fun _ => [],
    virtualVertexInUse := fun k => k == 1 || k == 3,
    minorType := MINORTYPE_A }

/-- Session state with a non-planarity outcome over gw. -/
def stW : SessionState :=
  { graph := some gw,
    edgeIdByArc := some (fun a => if 0 ≤ a ∧ a < 4 then a / 2 else -1),
    edgeIdByArcSize := 4, vertexCount := 5, edgeCount := 2,
    lastEmbedResult := NONEMBEDDABLE }

/-! Helper lemmas. -/

/-- Every identity emitted by the witness-edge walk passes the 0..m-1
guard of the walk. -/
theorem witnessEdgesAux_mem_range (G : GraphLib) (mp : Int → Int)
    (sz mInt : Int) :
    ∀ (L : List Int) (seen : Nat → Bool) (x : Int),
      x ∈ witnessEdgesAux G mp sz mInt seen L → 0 ≤ x ∧ x < mInt := by
  intro L
  induction L with
  | nil => intro seen x hx; simp [witnessEdgesAux] at hx
  | cons a rest ih =>
    intro seen x hx
    rw [witnessEdgesAux] at hx
    split at hx
    · exact ih _ _ hx
    · simp only at hx
      split at hx
      · rcases List.mem_cons.mp hx with h | h
        · rename_i hcond
          subst h
          exact ⟨hcond.1, hcond.2.1⟩
        · exact ih _ _ h
      · exact ih _ _ hx

/-- Unfolding of the cursor prefix sum by one vertex. -/
theorem rotPrefixLen_succ (G : GraphLib) (n : Nat) :
    rotPrefixLen G (n + 1) = rotPrefixLen G n + ((G.arcsAt n).length : Int) := by
  unfold rotPrefixLen
  rw [List.range_succ, List.map_append, List.sum_append]
  push_cast
  simp

/-- Closed form of the inner arc walk of the rotation write. -/
theorem rotArcStep_foldl (G : GraphLib) (mp : Int → Int) (sz : Int) :
    ∀ (arcs : List Int) (a : RotAcc),
      arcs.foldl (rotArcStep G mp sz) a =
        { cursor := a.cursor + (arcs.length : Int),
          offsets := a.offsets,
          edgeIds := a.edgeIds ++ arcs.map (lookupArcEdgeId mp sz),
          neighbors := a.neighbors ++ arcs.map G.neighbor } := by
  intro arcs
  induction arcs with
  | nil => intro a; simp
  | cons x xs ih =>
    intro a
    rw [List.foldl_cons, ih]
    simp only [rotArcStep, List.map_cons, List.length_cons,
      List.append_assoc, List.singleton_append, RotAcc.mk.injEq,
      and_true, true_and]
    push_cast
    ring

/-- Closed form of the per-vertex fold of the rotation write. -/
theorem rotVertexStep_foldl (G : GraphLib) (mp : Int → Int) (sz : Int) :
    ∀ (k : Nat) (a : RotAcc),
      (List.range k).foldl (rotVertexStep G mp sz) a =
        { cursor := a.cursor + rotPrefixLen G k,
          offsets := a.offsets ++
            (List.range k).map (fun v0 => a.cursor + rotPrefixLen G v0),
          edgeIds := a.edgeIds ++
            (List.range k).flatMap
              (fun v0 => (G.arcsAt v0).map (lookupArcEdgeId mp sz)),
          neighbors := a.neighbors ++
            (List.range k).flatMap (fun v0 => (G.arcsAt v0).map G.neighbor) } := by
  intro k
  induction k with
  | zero => intro a; simp [rotPrefixLen]
  | succ n ihn =>
    intro a
    rw [List.range_succ, List.foldl_append, ihn]
    simp only [List.foldl_cons, List.foldl_nil]
    rw [rotVertexStep, rotArcStep_foldl]
    simp only [rotPrefixLen_succ, List.range_succ, List.map_append,
      List.flatMap_append, List.flatMap_cons, List.flatMap_nil,
      List.map_cons, List.map_nil, List.append_assoc, List.append_nil,
      RotAcc.mk.injEq, and_true, true_and]
    ring

/-- The counting walk returns the length of the list the write walk
emits, from any seen set. -/
theorem witnessCountAux_eq_length (G : GraphLib) (mp : Int → Int)
    (sz mInt : Int) :
    ∀ (L : List Int) (seen : Nat → Bool),
      witnessCountAux G mp sz mInt seen L =
        ((witnessEdgesAux G mp sz mInt seen L).length : Int) := by
  intro L
  induction L with
  | nil => intro seen; simp [witnessCountAux, witnessEdgesAux]
  | cons a rest ih =>
    intro seen
    rw [witnessCountAux, witnessEdgesAux]
    split
    · exact ih seen
    · simp only
      split
      · rw [ih]
        push_cast [List.length_cons]
        ring
      · exact ih seen

/-- Folding the keep-first deduplication step preserves the absence of
duplicates. -/
theorem dkfFoldl_nodup :
    ∀ (l acc : List Int), acc.Nodup →
      (l.foldl (fun acc2 x => if x ∈ acc2 then acc2 else acc2 ++ [x]) acc).Nodup := by
  intro l
  induction l with
  | nil => intro acc h; simpa using h
  | cons y l2 ih =>
    intro acc h
    rw [List.foldl_cons]
    by_cases hy : y ∈ acc
    · rw [if_pos hy]
      exact ih acc h
    · rw [if_neg hy]
      refine ih _ ?_
      simp [List.nodup_append, h, hy]

/-- Membership through the keep-first deduplication fold. -/
theorem dkfFoldl_mem :
    ∀ (l acc : List Int) (x : Int),
      x ∈ l.foldl (fun acc2 x2 => if x2 ∈ acc2 then acc2 else acc2 ++ [x2]) acc ↔
        x ∈ acc ∨ x ∈ l := by
  intro l
  induction l with
  | nil => intro acc x; simp
  | cons y l2 ih =>
    intro acc x
    rw [List.foldl_cons]
    by_cases hy : y ∈ acc
    · rw [if_pos hy, ih]
      constructor
      · rintro (h | h)
        · exact Or.inl h
        · exact Or.inr (List.mem_cons_of_mem _ h)
      · rintro (h | h)
        · exact Or.inl h
        · rcases List.mem_cons.mp h with rfl | h2
          · exact Or.inl hy
          · exact Or.inr h2
    · rw [if_neg hy, ih]
      simp [List.mem_append, List.mem_cons, or_assoc]

/-- Fusion of the one-pass witness-edge walk with the staged form: filter
the in-use arcs, map through the guarded lookup, keep the identities in
range, and deduplicate keeping first occurrences. -/
theorem witnessEdgesAux_fusion (G : GraphLib) (mp : Int → Int)
    (sz mInt : Int) :
    ∀ (L : List Int) (seen : Nat → Bool) (out : List Int),
      (∀ e : Nat, seen e = true ↔ (e : Int) ∈ out) →
      (∀ x ∈ out, 0 ≤ x) →
      out ++ witnessEdgesAux G mp sz mInt seen L =
        (((L.filter (fun a => G.edgeInUse a)).map
            (lookupArcEdgeId mp sz)).filter
              (fun e => decide (0 ≤ e ∧ e < mInt))).foldl
          (fun acc x => if x ∈ acc then acc else acc ++ [x]) out := by
  intro L
  induction L with
  | nil =>
    intro seen out hseen hpos
    simp [witnessEdgesAux]
  | cons a rest ih =>
    intro seen out hseen hpos
    by_cases hu : G.edgeInUse a = false
    · have hfil : (a :: rest).filter (fun a2 => G.edgeInUse a2) =
          rest.filter (fun a2 => G.edgeInUse a2) := by
        rw [List.filter_cons, if_neg (by simp [hu])]
      rw [witnessEdgesAux, if_pos hu, hfil]
      exact ih seen out hseen hpos
    · have hu2 : G.edgeInUse a = true := by simpa using hu
      have hfil : (a :: rest).filter (fun a2 => G.edgeInUse a2) =
          a :: rest.filter (fun a2 => G.edgeInUse a2) := by
        rw [List.filter_cons, if_pos (by simp [hu2])]
      rw [witnessEdgesAux, if_neg hu, hfil, List.map_cons]
      by_cases hrange : 0 ≤ lookupArcEdgeId mp sz a ∧ lookupArcEdgeId mp sz a < mInt
      · have hfil2 : (lookupArcEdgeId mp sz a ::
              (rest.filter (fun a2 => G.edgeInUse a2)).map
                (lookupArcEdgeId mp sz)).filter
              (fun e => decide (0 ≤ e ∧ e < mInt)) =
            lookupArcEdgeId mp sz a ::
              ((rest.filter (fun a2 => G.edgeInUse a2)).map
                (lookupArcEdgeId mp sz)).filter
                (fun e => decide (0 ≤ e ∧ e < mInt)) := by
          rw [List.filter_cons, if_pos (by simpa using hrange)]
        rw [hfil2, List.foldl_cons]
        by_cases hsn : seen (lookupArcEdgeId mp sz a).toNat = false
        · rw [if_pos ⟨hrange.1, hrange.2, hsn⟩]
          have hnotmem : lookupArcEdgeId mp sz a ∉ out := by
            intro hmem
            have h1 : ((lookupArcEdgeId mp sz a).toNat : Int) =
                lookupArcEdgeId mp sz a := Int.toNat_of_nonneg hrange.1
            have h2 := (hseen (lookupArcEdgeId mp sz a).toNat).mpr
              (by rw [h1]; exact hmem)
            rw [h2] at hsn
            exact Bool.noConfusion hsn
          rw [if_neg hnotmem]
          have hstep : out ++ lookupArcEdgeId mp sz a ::
              witnessEdgesAux G mp sz mInt
                (fun e => if e = (lookupArcEdgeId mp sz a).toNat then true
                  else seen e) rest =
              (out ++ [lookupArcEdgeId mp sz a]) ++
                witnessEdgesAux G mp sz mInt
                  (fun e => if e = (lookupArcEdgeId mp sz a).toNat then true
                    else seen e) rest := by
            simp
          rw [hstep]
          refine ih _ _ ?_ ?_
          · intro e
            by_cases he : e = (lookupArcEdgeId mp sz a).toNat
            · subst he
              simp [Int.toNat_of_nonneg hrange.1]
            · simp only [if_neg he]
              rw [hseen e]
              constructor
              · intro h
                exact List.mem_append_left _ h
              · intro h
                rcases List.mem_append.mp h with h2 | h2
                · exact h2
                · exfalso
                  have : (e : Int) = lookupArcEdgeId mp sz a := by
                    simpa using h2
                  apply he
                  omega
          · intro x hx
            rcases List.mem_append.mp hx with h2 | h2
            · exact hpos x h2
            · have : x = lookupArcEdgeId mp sz a := by simpa using h2
              omega
        · rw [if_neg (by
            intro hcond
            exact hsn hcond.2.2)]
          have hmem : lookupArcEdgeId mp sz a ∈ out := by
            have h1 : seen (lookupArcEdgeId mp sz a).toNat = true := by
              cases h2 : seen (lookupArcEdgeId mp sz a).toNat
              · exact absurd h2 hsn
              · rfl
            have h3 := (hseen _).mp h1
            rwa [Int.toNat_of_nonneg hrange.1] at h3
          rw [if_pos hmem]
          exact ih seen out hseen hpos
      · have hfil3 : (lookupArcEdgeId mp sz a ::
              (rest.filter (fun a2 => G.edgeInUse a2)).map
                (lookupArcEdgeId mp sz)).filter
              (fun e => decide (0 ≤ e ∧ e < mInt)) =
            ((rest.filter (fun a2 => G.edgeInUse a2)).map
              (lookupArcEdgeId mp sz)).filter
              (fun e => decide (0 ≤ e ∧ e < mInt)) := by
          rw [List.filter_cons, if_neg (by simpa using hrange)]
        rw [hfil3]
        rw [if_neg (fun hcond => hrange ⟨hcond.1, hcond.2.1⟩)]
        exact ih seen out hseen hpos

/-- Counting helper: when the per-vertex walks enumerate the in-use arcs
without repetition and the library holds two in-use arcs per successfully
inserted edge, the incidence total is 2 m. -/
theorem rotation_sum_eq (G : GraphLib) (n2 m2 : Nat)
    (hPerm : ((List.range n2).flatMap G.arcsAt).Perm (inUseArcsList G))
    (hCount : (inUseArcsList G).length = 2 * m2) :
    ((List.range n2).map (fun v0 => ((G.arcsAt v0).length : Int))).sum =
      2 * (m2 : Int) := by
  have h1 : ((List.range n2).map (fun v0 => ((G.arcsAt v0).length : Int))).sum
      = ((((List.range n2).map (fun v0 => (G.arcsAt v0).length)).sum : Nat) : Int) := by
    rw [Nat.cast_list_sum, List.map_map]
    rfl
  have h2 : ((List.range n2).map (fun v0 => (G.arcsAt v0).length)).sum
      = ((List.range n2).flatMap G.arcsAt).length := by
    rw [List.length_flatMap]
    rfl
  rw [h1, h2, hPerm.length_eq, hCount]
  push_cast
  ring

/-- Two Boolean values agreeing as propositions are equal. -/
theorem bool_eq_of_iff {a b : Bool} (h : a = true ↔ b = true) : a = b := by
  cases a <;> cases b <;> simp_all

/-- The first-match scan only depends on the predicate values on the
list. -/
theorem find?_congrList {α : Type} (l : List α) (p q : α → Bool)
    (h : ∀ x ∈ l, p x = q x) : l.find? p = l.find? q := by
  induction l with
  | nil => rfl
  | cons a t ih =>
    simp only [List.find?_cons, h a (by simp)]
    cases q a
    · exact ih (fun x hx => h x (by simp [hx]))
    · rfl

/-- The membership scan only depends on the predicate values on the
list. -/
theorem any_congrList {α : Type} (l : List α) (p q : α → Bool)
    (h : ∀ x ∈ l, p x = q x) : l.any p = l.any q := by
  induction l with
  | nil => rfl
  | cons x t ih =>
    simp only [List.any_cons, h x (by simp)]
    rw [ih (fun y hy => h y (by simp [hy]))]

/-- The matching scan only depends on the used flags of identities below
m. -/
theorem findMatch_congr (u v : Nat → Int) (used used' : Nat → Bool)
    (uA vA : Int) (mNat : Nat) (h : ∀ e, e < mNat → used e = used' e) :
    findMatch u v used uA vA mNat = findMatch u v used' uA vA mNat := by
  unfold findMatch
  apply find?_congrList
  intro x hx
  rw [h x (List.mem_range.mp hx)]

/-- A successful matching scan returns an unclaimed identity below m whose
unordered endpoint pair equals the arc endpoints. -/
theorem findMatch_some_facts {u v : Nat → Int} {used : Nat → Bool}
    {uA vA : Int} {mNat : Nat} {e : Nat}
    (h : findMatch u v used uA vA mNat = some e) :
    e < mNat ∧ used e = false ∧
      ((u e = uA ∧ v e = vA) ∨ (u e = vA ∧ v e = uA)) := by
  unfold findMatch at h
  have h1 := List.find?_some h
  have h2 := List.mem_of_find?_eq_some h
  rw [List.mem_range] at h2
  simp only [Bool.and_eq_true, Bool.or_eq_true, Bool.not_eq_true',
    beq_iff_eq] at h1
  exact ⟨h2, h1.1, h1.2⟩

/-- The arc scan is strictly increasing. -/
theorem edgeScanArcs_pairwise (G : GraphLib) :
    (edgeScanArcs G).Pairwise (· < ·) := by
  unfold edgeScanArcs
  refine List.Pairwise.map _ (fun a b hab => ?_) (List.pairwise_lt_range _)
  have h2 : (Int.ofNat a) < Int.ofNat b := Int.ofNat_lt.mpr hab
  omega

/-- Reading the claimed-before test off the finished map. -/
theorem priorClaimed_eq_true_iff (G : GraphLib) (mp : Int → Int)
    (a2 : Int) (e : Nat) :
    priorClaimed G mp a2 e = true ↔
      ∃ b ∈ edgeScanArcs G, b < a2 ∧ mp b = (e : Int) := by
  unfold priorClaimed
  rw [List.any_eq_true]
  constructor
  · rintro ⟨b, hb, hp⟩
    simp only [Bool.and_eq_true, decide_eq_true_eq, beq_iff_eq] at hp
    exact ⟨b, hb, hp.1, hp.2⟩
  · rintro ⟨b, hb, h1, h2⟩
    exact ⟨b, hb, by simp [h1, h2]⟩

/-- The assigned-identity characterisation of an arc only depends on the
map entries of smaller scan arcs. -/
theorem specFirstUnclaimed_congr (u v : Nat → Int) (mNat : Nat)
    (G : GraphLib) (mp mp' : Int → Int) (c : Int)
    (h : ∀ b ∈ edgeScanArcs G, b < c → mp b = mp' b) :
    specFirstUnclaimed u v mNat G mp c = specFirstUnclaimed u v mNat G mp' c := by
  unfold specFirstUnclaimed
  have hfm : findMatch u v (priorClaimed G mp c) (G.neighbor (G.twinArc c))
      (G.neighbor c) mNat =
    findMatch u v (priorClaimed G mp' c) (G.neighbor (G.twinArc c))
      (G.neighbor c) mNat := by
    apply findMatch_congr
    intro e _
    apply bool_eq_of_iff
    rw [priorClaimed_eq_true_iff, priorClaimed_eq_true_iff]
    constructor
    · rintro ⟨b, hb, hlt, hmp⟩
      exact ⟨b, hb, hlt, by rw [← h b hb hlt]; exact hmp⟩
    · rintro ⟨b, hb, hlt, hmp⟩
      exact ⟨b, hb, hlt, by rw [h b hb hlt]; exact hmp⟩
  rw [hfm]

/-- The loop invariant of the arc-to-edge matching phase over the prefix
done of the arc scan: every mapped arc belongs to a canonical prefix arc
and its twin, both carrying the same identity; the used flags are exactly
the identities claimed by prefix arcs; distinct pairs never share an
identity; and every canonical prefix arc carries the identity the
first-unclaimed-match contract assigns to it. -/
def MatchInv (G : GraphLib) (u v : Nat → Int) (mNat : Nat)
    (done : List Int) (st : (Nat → Bool) × (Int → Int)) : Prop :=
  (∀ b : Int, st.2 b ≠ -1 →
    ∃ c, c ∈ done ∧ canonArc G c ∧ (b = c ∨ b = G.twinArc c) ∧
      st.2 c = st.2 b ∧ st.2 (G.twinArc c) = st.2 b)
  ∧ (∀ e : Nat, st.1 e = true ↔
      ∃ c, c ∈ done ∧ canonArc G c ∧ st.2 c = (e : Int))
  ∧ (∀ a b : Int, st.2 a ≠ -1 → st.2 a = st.2 b → b = a ∨ b = G.twinArc a)
  ∧ (∀ c, c ∈ done → canonArc G c →
      st.2 c = specFirstUnclaimed u v mNat G st.2 c)

/-- Extending the invariant over an arc that leaves the state unchanged:
it is enough that a canonical such arc stays unmapped and satisfies its
assignment contract. -/
theorem matchInv_extend (G : GraphLib) (u v : Nat → Int) (mNat : Nat)
    (done : List Int) (a : Int) (st : (Nat → Bool) × (Int → Int))
    (hInv : MatchInv G u v mNat done st)
    (hJ2a : canonArc G a → st.2 a = -1)
    (hJ4a : canonArc G a → st.2 a = specFirstUnclaimed u v mNat G st.2 a) :
    MatchInv G u v mNat (done ++ [a]) st := by
  obtain ⟨hJ1, hJ2, hJ3, hJ4⟩ := hInv
  refine ⟨?_, ?_, hJ3, ?_⟩
  · intro b hb
    obtain ⟨c, hc, hcan, hq, h5, h6⟩ := hJ1 b hb
    exact ⟨c, List.mem_append_left _ hc, hcan, hq, h5, h6⟩
  · intro e
    rw [hJ2 e]
    constructor
    · rintro ⟨c, hc, hcan, hmc⟩
      exact ⟨c, List.mem_append_left _ hc, hcan, hmc⟩
    · rintro ⟨c, hc, hcan, hmc⟩
      rcases List.mem_append.mp hc with hc2 | hc2
      · exact ⟨c, hc2, hcan, hmc⟩
      · have hca : c = a := by simpa using hc2
        subst hca
        rw [hJ2a hcan] at hmc
        exfalso
        omega
  · intro c hc hcan
    rcases List.mem_append.mp hc with hc2 | hc2
    · exact hJ4 c hc2 hcan
    · have hca : c = a := by simpa using hc2
      subst hca
      exact hJ4a hcan

/-- The invariant holds before the matching loop starts: no edge claimed,
all map entries -1. -/
theorem matchInv_init (G : GraphLib) (u v : Nat → Int) (mNat : Nat) :
    MatchInv G u v mNat [] (fun _ => false, fun _ => (-1 : Int)) := by
  refine ⟨?_, ?_, ?_, ?_⟩
  · intro b hb
    exact absurd rfl hb
  · intro e
    constructor
    · intro h
      exact Bool.noConfusion h
    · rintro ⟨c, hc, _⟩
      exact absurd hc (List.not_mem_nil c)
  · intro a b h1 _
    exact absurd rfl h1
  · intro c hc _
    exact absurd hc (List.not_mem_nil c)

/-- One iteration of the matching loop preserves the invariant, under the
library facts that in-use scan arcs twin involutively with distinct in-use
arcs and that arcs and twins lie inside the map bounds. -/
theorem matchStep_preserves (G : GraphLib) (u v : Nat → Int) (mNat : Nat)
    (sz : Int)
    (hW1 : ∀ x ∈ edgeScanArcs G, G.edgeInUse x = true →
      G.edgeInUse (G.twinArc x) = true ∧ G.twinArc (G.twinArc x) = x ∧
        G.twinArc x ≠ x)
    (hW2 : ∀ x ∈ edgeScanArcs G, G.edgeInUse x = true →
      (0 ≤ x ∧ x < sz) ∧ (0 ≤ G.twinArc x ∧ G.twinArc x < sz))
    (done rest : List Int) (a : Int)
    (hSL : edgeScanArcs G = done ++ a :: rest)
    (st : (Nat → Bool) × (Int → Int))
    (hInv : MatchInv G u v mNat done st) :
    MatchInv G u v mNat (done ++ [a]) (matchStep u v mNat G sz st a) := by
  obtain ⟨hJ1, hJ2, hJ3, hJ4⟩ := hInv
  have hPW : (edgeScanArcs G).Pairwise (· < ·) := edgeScanArcs_pairwise G
  rw [hSL] at hPW
  have hPA := List.pairwise_append.mp hPW
  have hdonelt : ∀ d ∈ done, d < a :=
    fun d hd => hPA.2.2 d hd a (List.mem_cons_self a rest)
  have hanotdone : a ∉ done := fun ha => lt_irrefl a (hdonelt a ha)
  have haSL : a ∈ edgeScanArcs G := by
    rw [hSL]
    exact List.mem_append_right _ (List.mem_cons_self a rest)
  have hdoneSL : ∀ d ∈ done, d ∈ edgeScanArcs G := by
    intro d hd
    rw [hSL]
    exact List.mem_append_left _ hd
  by_cases hu : G.edgeInUse a = false
  · -- arc not in use: skipped
    have hstep : matchStep u v mNat G sz st a = st := by
      unfold matchStep
      rw [if_pos hu]
    rw [hstep]
    refine matchInv_extend G u v mNat done a st ⟨hJ1, hJ2, hJ3, hJ4⟩
      (fun hcan => ?_) (fun hcan => ?_) <;>
      · exfalso
        have h8 := hcan.1
        rw [hu] at h8
        exact Bool.noConfusion h8
  · have hu2 : G.edgeInUse a = true := by
      cases h : G.edgeInUse a
      · exact absurd h hu
      · rfl
    have hW1a := hW1 a haSL hu2
    by_cases htw : G.twinArc a < a
    · -- twin smaller: skipped
      have hstep : matchStep u v mNat G sz st a = st := by
        unfold matchStep
        rw [if_neg (by simp [hu2])]
        dsimp only
        rw [if_pos htw]
      rw [hstep]
      refine matchInv_extend G u v mNat done a st ⟨hJ1, hJ2, hJ3, hJ4⟩
        (fun hcan => ?_) (fun hcan => ?_) <;>
        · exfalso
          have h8 := hcan.2
          omega
    · have hlt_a : a < G.twinArc a := by
        rcases lt_or_eq_of_le (not_lt.mp htw) with h | h
        · exact h
        · exact absurd h.symm hW1a.2.2
      have hcanA : canonArc G a := ⟨hu2, hlt_a⟩
      -- the arc itself and its twin are still unmapped
      have hmpa : st.2 a = -1 := by
        by_contra hne
        obtain ⟨c, hc, hcan, hq, h5, h6⟩ := hJ1 a hne
        rcases hq with heq | heq
        · exact hanotdone (heq ▸ hc)
        · have h7 : G.twinArc a = c := by
            rw [heq, (hW1 c (hdoneSL c hc) hcan.1).2.1]
          have h8 : c < a := hdonelt c hc
          omega
      have hmptwin : st.2 (G.twinArc a) = -1 := by
        by_contra hne
        obtain ⟨c, hc, hcan, hq, h5, h6⟩ := hJ1 _ hne
        rcases hq with heq | heq
        · have h8 : c < a := hdonelt c hc
          omega
        · have h7 : a = c := by
            have h8 := congrArg G.twinArc heq
            rw [hW1a.2.1, (hW1 c (hdoneSL c hc) hcan.1).2.1] at h8
            exact h8
          exact hanotdone (h7 ▸ hc)
      -- the used flags read as claimed-before-a off the current map
      have husedEq : ∀ e : Nat, st.1 e = priorClaimed G st.2 a e := by
        intro e
        apply bool_eq_of_iff
        rw [hJ2 e, priorClaimed_eq_true_iff]
        constructor
        · rintro ⟨c, hc, hcan, hmc⟩
          exact ⟨c, hdoneSL c hc, hdonelt c hc, hmc⟩
        · rintro ⟨b, hbSL, hblt, hmb⟩
          have hbne : st.2 b ≠ -1 := by
            rw [hmb]
            omega
          obtain ⟨c, hc, hcan, hq, h5, h6⟩ := hJ1 b hbne
          exact ⟨c, hc, hcan, by rw [h5, hmb]⟩
      cases hfind : findMatch u v st.1 (G.neighbor (G.twinArc a))
          (G.neighbor a) mNat with
      | none =>
        have hstep : matchStep u v mNat G sz st a = st := by
          unfold matchStep
          rw [if_neg (by simp [hu2])]
          dsimp only
          rw [if_neg htw, hfind]
        rw [hstep]
        have hspecA : specFirstUnclaimed u v mNat G st.2 a = -1 := by
          unfold specFirstUnclaimed
          rw [← findMatch_congr u v st.1 (priorClaimed G st.2 a) _ _ mNat
            (fun e _ => husedEq e), hfind]
          rfl
        exact matchInv_extend G u v mNat done a st ⟨hJ1, hJ2, hJ3, hJ4⟩
          (fun _ => hmpa) (fun _ => hmpa.trans hspecA.symm)
      | some e =>
        have hff := findMatch_some_facts hfind
        have hba := hW2 a haSL hu2
        have hstep : matchStep u v mNat G sz st a =
            (fun e2 => if e2 = e then true else st.1 e2,
             fun b =>
               if 0 ≤ G.twinArc a ∧ G.twinArc a < sz ∧ b = G.twinArc a
               then (e : Int)
               else if 0 ≤ a ∧ a < sz ∧ b = a then (e : Int)
               else st.2 b) := by
          unfold matchStep
          rw [if_neg (by simp [hu2])]
          dsimp only
          rw [if_neg htw, hfind]
        rw [hstep]
        -- freshness of the newly claimed identity
        have hfresh : ∀ b : Int, st.2 b ≠ (e : Int) := by
          intro b hb
          have hbne : st.2 b ≠ -1 := by
            rw [hb]
            omega
          obtain ⟨c, hc, hcan, hq, h5, h6⟩ := hJ1 b hbne
          have h7 : st.1 e = true := (hJ2 e).mpr ⟨c, hc, hcan, by rw [h5, hb]⟩
          rw [hff.2.1] at h7
          exact Bool.noConfusion h7
        -- evaluation of the updated map
        have hmp'_twin :
            (if 0 ≤ G.twinArc a ∧ G.twinArc a < sz ∧
                G.twinArc a = G.twinArc a then (e : Int)
             else if 0 ≤ a ∧ a < sz ∧ G.twinArc a = a then (e : Int)
             else st.2 (G.twinArc a)) = (e : Int) := by
          rw [if_pos ⟨hba.2.1, hba.2.2, rfl⟩]
        have hmp'_a :
            (if 0 ≤ G.twinArc a ∧ G.twinArc a < sz ∧ a = G.twinArc a
              then (e : Int)
             else if 0 ≤ a ∧ a < sz ∧ a = a then (e : Int)
             else st.2 a) = (e : Int) := by
          rw [if_neg (fun h => hW1a.2.2 h.2.2.symm),
            if_pos ⟨hba.1.1, hba.1.2, rfl⟩]
        have hmp'_other : ∀ b : Int, b ≠ a → b ≠ G.twinArc a →
            (if 0 ≤ G.twinArc a ∧ G.twinArc a < sz ∧ b = G.twinArc a
              then (e : Int)
             else if 0 ≤ a ∧ a < sz ∧ b = a then (e : Int)
             else st.2 b) = st.2 b := by
          intro b h1 h2
          rw [if_neg (fun h => h2 h.2.2), if_neg (fun h => h1 h.2.2)]
        have hdone_ne : ∀ c ∈ done, c ≠ a ∧ c ≠ G.twinArc a := by
          intro c hc
          have h8 : c < a := hdonelt c hc
          constructor <;> omega
        have htwc_ne : ∀ c ∈ done, canonArc G c →
            G.twinArc c ≠ a ∧ G.twinArc c ≠ G.twinArc a := by
          intro c hc hcan
          have h8 : c < a := hdonelt c hc
          have hW1c := hW1 c (hdoneSL c hc) hcan.1
          constructor
          · intro h9
            have h10 : G.twinArc a = c := by rw [← h9, hW1c.2.1]
            omega
          · intro h9
            have h10 : c = a := by
              have h11 := congrArg G.twinArc h9
              rw [hW1c.2.1, hW1a.2.1] at h11
              exact h11
            omega
        refine ⟨?_, ?_, ?_, ?_⟩
        · -- J1
          intro b hb
          by_cases hbT : b = G.twinArc a
          · refine ⟨a, List.mem_append_right _ (by simp), hcanA,
              Or.inr hbT, ?_, ?_⟩
            · rw [hbT]
              dsimp only
              rw [hmp'_a, hmp'_twin]
            · rw [hbT]
          · by_cases hbA : b = a
            · refine ⟨a, List.mem_append_right _ (by simp), hcanA,
                Or.inl hbA, ?_, ?_⟩
              · rw [hbA]
              · rw [hbA]
                dsimp only
                rw [hmp'_a, hmp'_twin]
            · dsimp only at hb
              rw [hmp'_other b hbA hbT] at hb
              obtain ⟨c, hc, hcan, hq, h5, h6⟩ := hJ1 b hb
              have hcne := hdone_ne c hc
              have htne := htwc_ne c hc hcan
              refine ⟨c, List.mem_append_left _ hc, hcan, hq, ?_, ?_⟩
              · dsimp only
                rw [hmp'_other c hcne.1 hcne.2, hmp'_other b hbA hbT]
                exact h5
              · dsimp only
                rw [hmp'_other _ htne.1 htne.2, hmp'_other b hbA hbT]
                exact h6
        · -- J2
          intro e2
          by_cases he2 : e2 = e
          · subst he2
            dsimp only
            rw [if_pos rfl]
            refine iff_of_true rfl ?_
            refine ⟨a, List.mem_append_right _ (by simp), hcanA, ?_⟩
            rw [hmp'_a]
          · dsimp only
            rw [if_neg he2, hJ2 e2]
            constructor
            · rintro ⟨c, hc, hcan, hmc⟩
              have hcne := hdone_ne c hc
              refine ⟨c, List.mem_append_left _ hc, hcan, ?_⟩
              rw [hmp'_other c hcne.1 hcne.2]
              exact hmc
            · rintro ⟨c, hc, hcan, hmc⟩
              rcases List.mem_append.mp hc with hc2 | hc2
              · have hcne := hdone_ne c hc2
                rw [hmp'_other c hcne.1 hcne.2] at hmc
                exact ⟨c, hc2, hcan, hmc⟩
              · have hca : c = a := by simpa using hc2
                subst hca
                rw [hmp'_a] at hmc
                exfalso
                apply he2
                omega
        · -- J3
          intro a1 b1 h1 h2
          dsimp only at h1 h2
          by_cases ha1T : a1 = G.twinArc a
          · by_cases hb1T : b1 = G.twinArc a
            · exact Or.inl (hb1T.trans ha1T.symm)
            · by_cases hb1A : b1 = a
              · right
                rw [ha1T, hW1a.2.1, hb1A]
              · rw [hmp'_other b1 hb1A hb1T] at h2
                rw [ha1T, hmp'_twin] at h2
                exact absurd h2.symm (hfresh b1)
          · by_cases ha1A : a1 = a
            · by_cases hb1T : b1 = G.twinArc a
              · right
                rw [ha1A, hb1T]
              · by_cases hb1A : b1 = a
                · exact Or.inl (hb1A.trans ha1A.symm)
                · rw [hmp'_other b1 hb1A hb1T] at h2
                  rw [ha1A, hmp'_a] at h2
                  exact absurd h2.symm (hfresh b1)
            · rw [hmp'_other a1 ha1A ha1T] at h1 h2
              by_cases hb1T : b1 = G.twinArc a
              · rw [hb1T, hmp'_twin] at h2
                exact absurd h2 (hfresh a1)
              · by_cases hb1A : b1 = a
                · rw [hb1A, hmp'_a] at h2
                  exact absurd h2 (hfresh a1)
                · rw [hmp'_other b1 hb1A hb1T] at h2
                  exact hJ3 a1 b1 h1 h2
        · -- J4
          intro c hc hcan
          rcases List.mem_append.mp hc with hc2 | hc2
          · have hcne := hdone_ne c hc2
            have hcongr : specFirstUnclaimed u v mNat G
                (fun b =>
                  if 0 ≤ G.twinArc a ∧ G.twinArc a < sz ∧ b = G.twinArc a
                  then (e : Int)
                  else if 0 ≤ a ∧ a < sz ∧ b = a then (e : Int)
                  else st.2 b) c =
                specFirstUnclaimed u v mNat G st.2 c := by
              apply specFirstUnclaimed_congr
              intro b hbSL hblt
              have h8 : c < a := hdonelt c hc2
              exact hmp'_other b (by omega) (by omega)
            dsimp only
            rw [hmp'_other c hcne.1 hcne.2, hcongr]
            exact hJ4 c hc2 hcan
          · have hca : c = a := by simpa using hc2
            subst hca
            dsimp only
            rw [hmp'_a]
            have hcongr : specFirstUnclaimed u v mNat G
                (fun b =>
                  if 0 ≤ G.twinArc c ∧ G.twinArc c < sz ∧ b = G.twinArc c
                  then (e : Int)
                  else if 0 ≤ c ∧ c < sz ∧ b = c then (e : Int)
                  else st.2 b) c =
                specFirstUnclaimed u v mNat G st.2 c := by
              apply specFirstUnclaimed_congr
              intro b hbSL hblt
              exact hmp'_other b (by omega) (by omega)
            rw [hcongr]
            unfold specFirstUnclaimed
            rw [← findMatch_congr u v st.1 (priorClaimed G st.2 c) _ _ mNat
              (fun e' _ => husedEq e'), hfind]
            rfl

/-- Folding the matching loop over the remaining scan arcs carries the
invariant to the whole scan. -/
theorem matchFold_inv (G : GraphLib) (u v : Nat → Int) (mNat : Nat)
    (sz : Int)
    (hW1 : ∀ x ∈ edgeScanArcs G, G.edgeInUse x = true →
      G.edgeInUse (G.twinArc x) = true ∧ G.twinArc (G.twinArc x) = x ∧
        G.twinArc x ≠ x)
    (hW2 : ∀ x ∈ edgeScanArcs G, G.edgeInUse x = true →
      (0 ≤ x ∧ x < sz) ∧ (0 ≤ G.twinArc x ∧ G.twinArc x < sz)) :
    ∀ (pending done : List Int) (st : (Nat → Bool) × (Int → Int)),
      edgeScanArcs G = done ++ pending →
      MatchInv G u v mNat done st →
      MatchInv G u v mNat (edgeScanArcs G)
        (pending.foldl (matchStep u v mNat G sz) st) := by
  intro pending
  induction pending with
  | nil =>
    intro done st hSL hInv
    rw [List.foldl_nil]
    rw [List.append_nil] at hSL
    rw [hSL]
    exact hInv
  | cons a rest ih =>
    intro done st hSL hInv
    rw [List.foldl_cons]
    refine ih (done ++ [a]) _ ?_
      (matchStep_preserves G u v mNat sz hW1 hW2 done rest a hSL st hInv)
    rw [hSL]
    simp

/-- Claim C4: after the matching phase, an arc and its twin carry the same
identity (or both the sentinel), every identity is recorded for at most
one arc-twin pair, and every canonical in-use arc carries the first input
edge not claimed by a smaller arc whose unordered endpoint pair equals its
endpoints, all under the library facts that in-use scan arcs twin
involutively with distinct arcs inside the map bounds. -/
theorem tl_C4_arc_map_invariants (G : GraphLib) (u v : Nat → Int)
    (mNat : Nat) (sz : Int)
    (hW1 : ∀ x ∈ edgeScanArcs G, G.edgeInUse x = true →
      G.edgeInUse (G.twinArc x) = true ∧ G.twinArc (G.twinArc x) = x ∧
        G.twinArc x ≠ x)
    (hW2 : ∀ x ∈ edgeScanArcs G, G.edgeInUse x = true →
      (0 ≤ x ∧ x < sz) ∧ (0 ≤ G.twinArc x ∧ G.twinArc x < sz)) :
    (∀ a ∈ edgeScanArcs G, G.edgeInUse a = true →
        (buildArcMap u v mNat G sz).2 a =
          (buildArcMap u v mNat G sz).2 (G.twinArc a))
    ∧ (∀ a b : Int, (buildArcMap u v mNat G sz).2 a ≠ -1 →
        (buildArcMap u v mNat G sz).2 a = (buildArcMap u v mNat G sz).2 b →
        b = a ∨ b = G.twinArc a)
    ∧ (∀ a ∈ edgeScanArcs G, canonArc G a →
        (buildArcMap u v mNat G sz).2 a =
          specFirstUnclaimed u v mNat G (buildArcMap u v mNat G sz).2 a) := by
  have hInv : MatchInv G u v mNat (edgeScanArcs G) (buildArcMap u v mNat G sz) :=
    matchFold_inv G u v mNat sz hW1 hW2 (edgeScanArcs G) [] _ rfl
      (matchInv_init G u v mNat)
  obtain ⟨hJ1, hJ2, hJ3, hJ4⟩ := hInv
  refine ⟨?_, hJ3, fun a haSL hcan => hJ4 a haSL hcan⟩
  intro a haSL hu2
  have hW1a := hW1 a haSL hu2
  by_cases h1 : (buildArcMap u v mNat G sz).2 a = -1
  · by_cases h2 : (buildArcMap u v mNat G sz).2 (G.twinArc a) = -1
    · rw [h1, h2]
    · obtain ⟨c, hc, hcan, hq, h5, h6⟩ := hJ1 _ h2
      rcases hq with heq | heq
      · have h7 : G.twinArc c = a := by
          rw [← heq, hW1a.2.1]
        calc (buildArcMap u v mNat G sz).2 a
            = (buildArcMap u v mNat G sz).2 (G.twinArc c) := by rw [h7]
          _ = (buildArcMap u v mNat G sz).2 (G.twinArc a) := h6
      · have hac : a = c := by
          have h8 := congrArg G.twinArc heq
          rw [hW1a.2.1, (hW1 c hc hcan.1).2.1] at h8
          exact h8
        rw [hac]
        rw [heq] at h5
        exact h5
  · obtain ⟨c, hc, hcan, hq, h5, h6⟩ := hJ1 _ h1
    rcases hq with heq | heq
    · rw [← heq] at h6
      exact h6.symm
    · have h7 : G.twinArc a = c := by
        rw [heq, (hW1 c hc hcan.1).2.1]
      rw [h7]
      exact h5.symm

/-- Witness for claim C4 on the triangle graph: arc 0 and its twin carry
the same identity, and the concrete map pairs arcs 0 1, 2 3, 4 5 with
edges 0, 1, 2. -/
theorem tl_C4_witness :
    (buildArcMap triU triV 3 triBuilt 12).2 0 =
      (buildArcMap triU triV 3 triBuilt 12).2 (triBuilt.twinArc 0) ∧
    [0, 1, 2, 3, 4, 5].map (buildArcMap triU triV 3 triBuilt 12).2 =
      [0, 0, 1, 1, 2, 2] := by
  constructor
  · refine (tl_C4_arc_map_invariants triBuilt triU triV 3 12 ?_ ?_).1 0
      (by decide) (by decide)
    · decide
    · decide
  · decide

/-! Theorems for the claims. -/

/-- Claim C1 (code bug): extraction gating is broken on a failed run.  When
the scratch allocation of the matching phase fails, run returns the failure
status NOTOK, yet the retained state still reports rotationSize 6 for the
triangle instead of the empty result the safe-empty contract promises,
because the failure is never recorded in g_lastEmbedResult (0 is OK) and
the partly built graph is kept. -/
theorem tl_C1_failed_run_rotation_not_gated :
    (tl_planarity_run 3 3 triU triV 0 badCallocOracle).2 = NOTOK ∧
    tl_planarity_rotation_size
      (tl_planarity_run 3 3 triU triV 0 badCallocOracle).1 = 6 := by
  constructor <;> decide

/-- Claim C2 (counterexample): a run that fails at edge insertion (as for
an out-of-range endpoint) returns the failure status but does not leave
the session cleared: the graph, the arc map and the counts are retained. -/
theorem tl_C2_counterexample_insert_failure_retains_state :
    (tl_planarity_run 2 1 (fun _ => 0) (fun _ => 5) 0 addFailOracle).2 = NOTOK ∧
    (tl_planarity_run 2 1 (fun _ => 0) (fun _ => 5) 0 addFailOracle).1 ≠
      clearedState := by
  constructor
  · decide
  · intro h
    exact absurd (congrArg SessionState.vertexCount h) (by decide)

/-- Claim C2 (amended): only the up-front validation failures (n at most 0
or m negative) leave the session fully cleared when run returns; later
failure paths retain the partly built state until the next run or free
discards it. -/
theorem tl_C2_amended_invalid_input_clears (n m : Int) (u v : Nat → Int)
    (embedFlags : Int) (L : LibOracle) (h : n ≤ 0 ∨ m < 0) :
    tl_planarity_run n m u v embedFlags L = (clearedState, NOTOK) := by
  unfold tl_planarity_run
  rcases h with h | h
  · rw [if_pos h]
  · by_cases hn : n ≤ 0
    · rw [if_pos hn]
    · rw [if_neg hn, if_pos h]

/-- Witness for the amended claim C2 at the concrete invalid input n = 0. -/
theorem tl_C2_amended_witness :
    tl_planarity_run 0 0 triU triV 0 triOracleOk = (clearedState, NOTOK) :=
  tl_C2_amended_invalid_input_clears 0 0 triU triV 0 triOracleOk
    (Or.inl (by decide))

/-- Claim C3: a run that returns the success-with-embedding status has
rotationSize 2 m, for endpoint-distinct input edges, under the library
contract that the per-vertex walks of the embedded graph enumerate its
in-use arcs without repetition and that the m inserted edges are held as
2 m in-use arcs. -/
theorem tl_C3_rotation_size_two_m (n m : Int) (u v : Nat → Int)
    (embedFlags : Int) (L : LibOracle) (s : SessionState)
    (hrun : tl_planarity_run n m u v embedFlags L = (s, OK))
    (_hSimple : edgesDistinctPairs u v m.toNat)
    (hPerm : ((List.range n.toNat).flatMap L.sortedGraph.arcsAt).Perm
      (inUseArcsList L.sortedGraph))
    (hCount : (inUseArcsList L.sortedGraph).length = 2 * m.toNat) :
    tl_planarity_rotation_size s = 2 * m := by
  unfold tl_planarity_run at hrun
  repeat'
    first
    | (exact absurd (show NOTOK = OK from congrArg Prod.snd hrun) (by decide))
    | split at hrun
    | dsimp only at hrun
  all_goals
    try
      (rename_i hcond
       exact absurd (Or.inl (show L.embedResult embedFlags = OK from
         congrArg Prod.snd hrun)) hcond)
  all_goals
    (have hres : L.embedResult embedFlags = OK := congrArg Prod.snd hrun
     have hs : s =
        { graph := some L.sortedGraph,
          edgeIdByArc :=
            some (buildArcMap u v m.toNat L.builtGraph L.edgeIndexBound).2,
          edgeIdByArcSize := L.edgeIndexBound,
          vertexCount := n, edgeCount := m,
          lastEmbedResult := L.embedResult embedFlags } :=
       (show _ = s from congrArg Prod.fst hrun).symm
     rw [hs]
     unfold tl_planarity_rotation_size
     dsimp only
     rw [if_neg (fun h => h hres)]
     have hm2 : (m.toNat : Int) = m := Int.toNat_of_nonneg (by omega)
     calc ((List.range n.toNat).map
           (fun v0 => ((L.sortedGraph.arcsAt v0).length : Int))).sum
         = 2 * (m.toNat : Int) :=
           rotation_sum_eq L.sortedGraph n.toNat m.toNat hPerm hCount
       _ = 2 * m := by rw [hm2])

/-- Witness for claim C3: the successful triangle run has rotationSize 6. -/
theorem tl_C3_witness :
    tl_planarity_rotation_size
      (tl_planarity_run 3 3 triU triV 0 triOracleOk).1 = 2 * 3 := by
  have h2 : (tl_planarity_run 3 3 triU triV 0 triOracleOk).2 = OK := by decide
  have hpair : tl_planarity_run 3 3 triU triV 0 triOracleOk =
      ((tl_planarity_run 3 3 triU triV 0 triOracleOk).1, OK) := by
    rw [← h2]
  exact tl_C3_rotation_size_two_m 3 3 triU triV 0 triOracleOk
    (tl_planarity_run 3 3 triU triV 0 triOracleOk).1 hpair
    (by unfold edgesDistinctPairs unorderedPairEq; decide)
    (by decide) (by decide)

/-- Claim C5: witnessType always lies in the set 0, 5, 33; on a
non-planarity outcome it is 33 when a K3,3 family bit is present, else 5
when the K5 bit is present, else 0; in every other state it is 0. -/
theorem tl_C5_witness_type_range (s : SessionState) :
    (tl_planarity_witness_type s = 0 ∨ tl_planarity_witness_type s = 5 ∨
      tl_planarity_witness_type s = 33)
    ∧ (∀ G, s.graph = some G → s.lastEmbedResult = NONEMBEDDABLE →
        tl_planarity_witness_type s =
          (if G.minorType &&& tlK33Mask ≠ 0 then 33
           else if G.minorType &&& MINORTYPE_E ≠ 0 then 5 else 0))
    ∧ (s.graph = none → tl_planarity_witness_type s = 0)
    ∧ (s.lastEmbedResult ≠ NONEMBEDDABLE → tl_planarity_witness_type s = 0) := by
  refine ⟨?_, ?_, ?_, ?_⟩
  · cases hG : s.graph with
    | none => simp [tl_planarity_witness_type, hG]
    | some G =>
      simp only [tl_planarity_witness_type, hG]
      split
      · exact Or.inl rfl
      · split
        · exact Or.inr (Or.inr rfl)
        · split
          · exact Or.inr (Or.inl rfl)
          · exact Or.inl rfl
  · intro G hG hr
    simp [tl_planarity_witness_type, hG, hr]
  · intro hG
    simp [tl_planarity_witness_type, hG]
  · intro hr
    cases hG : s.graph with
    | none => simp [tl_planarity_witness_type, hG]
    | some G => simp [tl_planarity_witness_type, hG, hr]

/-- Witness for claim C5: on the concrete non-planarity state whose minor
mask has bit A set, witnessType is 33. -/
theorem tl_C5_witness : tl_planarity_witness_type stW = 33 := by
  have h := (tl_C5_witness_type_range stW).2.1 gw rfl rfl
  rw [h]
  decide

/-- Claim C6: on a success-with-embedding outcome, writeRotation fills one
offset per vertex in rising order with that vertex starting cursor, appends
the total incidence count as offsets entry n, and emits for every vertex
the mapped edge identity (or -1 when unmapped) and the neighbor identifier
of each incident arc in the fixed cyclic order of the embedding. -/
theorem tl_C6_write_rotation_spec (s : SessionState) (G : GraphLib)
    (hg : s.graph = some G) (hr : s.lastEmbedResult = OK) :
    tl_planarity_write_rotation s =
      { cursor := rotPrefixLen G s.vertexCount.toNat,
        offsets := specRotationOffsets G s.vertexCount.toNat,
        edgeIds := specRotationEdgeIds G (sessionMap s) s.edgeIdByArcSize
          s.vertexCount.toNat,
        neighbors := specRotationNeighbors G s.vertexCount.toNat } := by
  unfold tl_planarity_write_rotation
  rw [hg, hr]
  dsimp only
  rw [if_neg (fun h => h rfl)]
  rw [rotVertexStep_foldl]
  unfold specRotationOffsets specRotationEdgeIds specRotationNeighbors
  rw [List.range_succ, List.map_append]
  simp

/-- Witness for claim C6 at the successful triangle state, including the
concrete rotation system. -/
theorem tl_C6_witness :
    tl_planarity_write_rotation sTri =
      { cursor := rotPrefixLen triBuilt 3,
        offsets := specRotationOffsets triBuilt 3,
        edgeIds := specRotationEdgeIds triBuilt (sessionMap sTri) 12 3,
        neighbors := specRotationNeighbors triBuilt 3 } ∧
    tl_planarity_write_rotation sTri =
      { cursor := 6, offsets := [0, 2, 4, 6], edgeIds := [0, 2, 0, 1, 1, 2],
        neighbors := [1, 2, 0, 2, 1, 0] } := by
  constructor
  · exact tl_C6_write_rotation_spec sTri triBuilt rfl rfl
  · decide

/-- Claim C7 (counterexample): at the concrete non-planarity state, when
the scratch allocation of the count call fails while the one of the write
call succeeds, the write emits its two distinct identities but the count
returns 0, so the number of emitted entries differs from the returned
count and the claim as stated fails. -/
theorem tl_C7_counterexample_calloc_mismatch :
    tl_planarity_witness_edge_count stW false = 0 ∧
    tl_planarity_write_witness_edges stW true = [0, 1] ∧
    tl_planarity_witness_edge_count stW false ≠
      ((tl_planarity_write_witness_edges stW true).length : Int) := by
  refine ⟨by decide, by decide, by decide⟩

/-- Claim C7 (amended): on a non-planarity outcome, when the scratch
allocation of each extraction call succeeds, writeWitnessEdges emits
exactly the distinct mapped edge identities of the in-use arcs, each once,
in arc-visitation order with the first occurrence kept, and
witnessEdgeCount returns the number of emitted entries; a call whose
scratch allocation fails yields the empty result instead. -/
theorem tl_C7_witness_edges_dedup (s : SessionState) (G : GraphLib)
    (hg : s.graph = some G) (hr : s.lastEmbedResult = NONEMBEDDABLE) :
    tl_planarity_write_witness_edges s true =
      specWitnessEdgeIds G (sessionMap s) s.edgeIdByArcSize s.edgeCount
    ∧ (tl_planarity_write_witness_edges s true).Nodup
    ∧ (∀ x : Int, x ∈ tl_planarity_write_witness_edges s true ↔
        x ∈ specWitnessRawIds G (sessionMap s) s.edgeIdByArcSize s.edgeCount)
    ∧ tl_planarity_witness_edge_count s true =
        ((tl_planarity_write_witness_edges s true).length : Int)
    ∧ tl_planarity_witness_edge_count s false = 0
    ∧ tl_planarity_write_witness_edges s false = [] := by
  have hcond : ¬ s.lastEmbedResult ≠ NONEMBEDDABLE := fun h => h hr
  have hwrite : tl_planarity_write_witness_edges s true =
      witnessEdgesAux G (sessionMap s) s.edgeIdByArcSize s.edgeCount
        (fun _ => false) (edgeScanArcs G) := by
    unfold tl_planarity_write_witness_edges
    rw [hg]
    dsimp only
    rw [if_neg hcond, if_neg (fun h => Bool.noConfusion h)]
  have hcount : tl_planarity_witness_edge_count s true =
      witnessCountAux G (sessionMap s) s.edgeIdByArcSize s.edgeCount
        (fun _ => false) (edgeScanArcs G) := by
    unfold tl_planarity_witness_edge_count
    rw [hg]
    dsimp only
    rw [if_neg hcond, if_neg (fun h => Bool.noConfusion h)]
  have hfusion := witnessEdgesAux_fusion G (sessionMap s) s.edgeIdByArcSize
    s.edgeCount (edgeScanArcs G) (fun _ => false) []
    (by intro e; simp) (by intro x hx; simp at hx)
  rw [List.nil_append] at hfusion
  have hspec : tl_planarity_write_witness_edges s true =
      specWitnessEdgeIds G (sessionMap s) s.edgeIdByArcSize s.edgeCount := by
    rw [hwrite, hfusion]
    rfl
  refine ⟨hspec, ?_, ?_, ?_, ?_, ?_⟩
  · rw [hspec]
    exact dkfFoldl_nodup _ [] (List.nodup_nil)
  · intro x
    rw [hspec]
    unfold specWitnessEdgeIds dedupKeepFirst
    rw [dkfFoldl_mem]
    simp [specWitnessRawIds, inUseArcsList]
  · rw [hwrite, hcount]
    exact witnessCountAux_eq_length G (sessionMap s) s.edgeIdByArcSize
      s.edgeCount (edgeScanArcs G) (fun _ => false)
  · unfold tl_planarity_witness_edge_count
    rw [hg]
    dsimp only
    rw [if_neg hcond, if_pos rfl]
  · unfold tl_planarity_write_witness_edges
    rw [hg]
    dsimp only
    rw [if_neg hcond, if_pos rfl]

/-- Witness for the amended claim C7 at the concrete non-planarity state:
with the scratch allocations succeeding, count and write agree and the
emitted identities are 0 and 1, each once. -/
theorem tl_C7_witness :
    tl_planarity_witness_edge_count stW true =
      ((tl_planarity_write_witness_edges stW true).length : Int) ∧
    tl_planarity_write_witness_edges stW true = [0, 1] := by
  constructor
  · exact (tl_C7_witness_edges_dedup stW gw rfl rfl).2.2.2.1
  · decide

/-- Claim C8: on a non-planarity outcome, writeWitnessVertices emits the
virtually flagged vertex identifiers in strictly ascending order, its
entries are exactly the flagged vertices, and witnessVertexCount returns
their number. -/
theorem tl_C8_witness_vertices_ascending (s : SessionState) (G : GraphLib)
    (hg : s.graph = some G) (hr : s.lastEmbedResult = NONEMBEDDABLE)
    (hv : ∀ k : Nat, G.virtualVertexInUse k = true → k < s.vertexCount.toNat) :
    List.Pairwise (· < ·) (tl_planarity_write_witness_vertices s)
    ∧ (∀ x : Int, x ∈ tl_planarity_write_witness_vertices s ↔
        ∃ k : Nat, G.virtualVertexInUse k = true ∧ x = (k : Int))
    ∧ tl_planarity_witness_vertex_count s =
        ((tl_planarity_write_witness_vertices s).length : Int) := by
  have hout : tl_planarity_write_witness_vertices s =
      ((List.range s.vertexCount.toNat).filter
        (fun v0 => G.virtualVertexInUse v0)).map (fun v0 => Int.ofNat v0) := by
    unfold tl_planarity_write_witness_vertices
    rw [hg]
    simp [hr]
  have hcnt : tl_planarity_witness_vertex_count s =
      (((List.range s.vertexCount.toNat).filter
        (fun v0 => G.virtualVertexInUse v0)).length : Int) := by
    unfold tl_planarity_witness_vertex_count
    rw [hg]
    simp [hr]
  refine ⟨?_, ?_, ?_⟩
  · rw [hout]
    refine List.Pairwise.map _ (fun a b h => ?_)
      (List.Pairwise.filter _ (List.pairwise_lt_range _))
    exact Int.ofNat_lt.mpr h
  · intro x
    rw [hout]
    simp only [List.mem_map, List.mem_filter, List.mem_range]
    constructor
    · rintro ⟨k, ⟨_, hvk⟩, rfl⟩
      exact ⟨k, hvk, rfl⟩
    · rintro ⟨k, hvk, rfl⟩
      exact ⟨k, ⟨hv k hvk, hvk⟩, rfl⟩
  · rw [hout, hcnt, List.length_map]

/-- Witness for claim C8 at the concrete non-planarity state: the flagged
vertices 1 and 3 are emitted ascending and counted. -/
theorem tl_C8_witness :
    tl_planarity_witness_vertex_count stW =
      ((tl_planarity_write_witness_vertices stW).length : Int) ∧
    tl_planarity_write_witness_vertices stW = [1, 3] := by
  constructor
  · refine (tl_C8_witness_vertices_ascending stW gw rfl rfl ?_).2.2
    intro k hk
    have hk2 : k = 1 ∨ k = 3 := by simpa [gw] using hk
    rcases hk2 with rfl | rfl <;> decide
  · decide

/-- Claim C9: free is idempotent and always safe: freeing twice equals
freeing once, any free yields the cleared state, and freeing the fresh
session leaves it unchanged. -/
theorem tl_C9_free_idempotent :
    ∀ s : SessionState,
      tl_planarity_free (tl_planarity_free s) = tl_planarity_free s ∧
      tl_planarity_free s = clearedState ∧
      tl_planarity_free initialSessionState = initialSessionState :=
  fun _ => ⟨rfl, rfl, rfl⟩

/-- Claim C10: the guarded arc map read returns the sentinel -1 for every
handle outside 0..mapSize-1, and every identity emitted by the witness-edge
write lies in 0..m-1. -/
theorem tl_C10_lookup_total :
    (∀ (mp : Int → Int) (sz arc : Int), arc < 0 ∨ sz ≤ arc →
      lookupArcEdgeId mp sz arc = -1)
    ∧ (∀ (s : SessionState) (callocOk : Bool) (x : Int),
        x ∈ tl_planarity_write_witness_edges s callocOk →
          0 ≤ x ∧ x < s.edgeCount) := by
  constructor
  · intro mp sz arc h
    unfold lookupArcEdgeId
    rw [if_neg]
    omega
  · intro s callocOk x hx
    cases hG : s.graph with
    | none =>
      simp only [tl_planarity_write_witness_edges, hG] at hx
      simp at hx
    | some G =>
      by_cases hr : s.lastEmbedResult ≠ NONEMBEDDABLE
      · simp only [tl_planarity_write_witness_edges, hG, if_pos hr] at hx
        simp at hx
      · by_cases hok : callocOk = false
        · simp only [tl_planarity_write_witness_edges, hG, if_neg hr,
            if_pos hok] at hx
          simp at hx
        · simp only [tl_planarity_write_witness_edges, hG, if_neg hr,
            if_neg hok] at hx
          exact witnessEdgesAux_mem_range _ _ _ _ _ _ x hx

/-- Witness for claim C10: an out-of-range handle reads -1, and the first
emitted witness edge of the concrete non-planarity state is inside 0..m-1. -/
theorem tl_C10_witness :
    lookupArcEdgeId (fun _ => 7) 5 (-1) = -1 ∧
    (0 ≤ (0 : Int) ∧ (0 : Int) < stW.edgeCount) :=
  ⟨tl_C10_lookup_total.1 (fun _ => 7) 5 (-1) (Or.inl (by decide)),
   tl_C10_lookup_total.2 stW true 0 (by decide)⟩

end TlPlanarity
